import Mathlib

/-!
Verification of the image-buffer core of cam2web (src/core/XImage.cpp).

The C++ source is shallowly embedded: byte buffers are lists of natural
numbers, `shared_ptr<XImage>` handles are `Option XImage` (with `none` the
empty handle), 32-bit unsigned arithmetic is `Nat` arithmetic reduced
modulo 2^32 exactly where the C code computes in `uint32_t`, and the
fallibility of `malloc` / `calloc` and of `new (nothrow)` is made explicit
through boolean oracle parameters (`mallocOk`, `newOk`).  Uninitialized
`malloc` content is supplied by an arbitrary `junk : Nat → Nat` parameter.
-/

namespace Cam2web

/-- Error codes used by XImage.cpp.  The enumeration lives in a header that
is not part of the sources; the four values below are exactly the ones the
implementation produces (`Success`, `NullPointer`, `ImageParametersMismatch`,
`OutOfMemory`), matching the error taxonomy of the specification. -/
inductive XError where
  | Success
  | NullPointer
  | ImageParametersMismatch
  | OutOfMemory
deriving DecidableEq

/-- Conversion of a C integer value to `uint32_t`: reduction modulo 2^32.
Used where the source multiplies an `int32_t` by a `uint32_t`, which C
performs in unsigned 32-bit arithmetic. -/
def toUInt32Val (x : Int) : Nat :=
  (x % (4294967296 : Int)).toNat

/-- XImageBitsPerPixel from XImage.cpp: looks the format tag up in the
static table `{ 0, 8, 24, 32, 8 }`.  The guard `formatIndex >= sizeof(sizes)/
sizeof(sizes[0])` compares a (possibly negative) `int` against a `size_t`,
so the `int` is first converted to the unsigned 64-bit type: a negative tag
becomes a huge value and falls into the `0` branch, never indexing the
table out of bounds. -/
def XImageBitsPerPixel (format : Int) : Nat :=
  let formatIndex : Nat := (format % (18446744073709551616 : Int)).toNat
  if 5 ≤ formatIndex then 0 else [0, 8, 24, 32, 8].getD formatIndex 0

/-- XImageBytesPerStride from XImage.cpp: `(( bitsPerLine + 31 ) & ~31) >> 3`
computed in `uint32_t` arithmetic (`~31` is the 32-bit mask 0xFFFFFFE0). -/
def XImageBytesPerStride (bitsPerLine : Nat) : Nat :=
  ((bitsPerLine % 4294967296 + 31) % 4294967296 &&& 0xFFFFFFE0) >>> 3

/-- XImageBytesPerLine from XImage.cpp: `( bitsPerLine + 7 ) >> 3` computed
in `uint32_t` arithmetic. -/
def XImageBytesPerLine (bitsPerLine : Nat) : Nat :=
  ((bitsPerLine % 4294967296 + 7) % 4294967296) >>> 3

/-- The XImage entity: a byte buffer (`none` models a null `mData` pointer)
together with geometry, format and the ownership flag, exactly the member
fields of the C++ class. -/
structure XImage where
  mData : Option (List Nat)
  mWidth : Int
  mHeight : Int
  mStride : Int
  mFormat : Int
  mOwnMemory : Bool
deriving DecidableEq

/-- The destructor of XImage frees the buffer exactly when the image owns
its memory and the data pointer is non-null
(`if ( mOwnMemory && mData != nullptr ) free( mData )`). -/
def XImage.destructorFrees (img : XImage) : Bool :=
  img.mOwnMemory && img.mData.isSome

/-- XImage::Allocate.  The stride is `XImageBytesPerStride( width *
XImageBitsPerPixel( format ) )` where the multiplication happens in
`uint32_t`; the buffer has `height * stride` bytes (the embedding uses the
mathematical product, which agrees with the C `int` product whenever the
latter does not overflow — signed overflow would be undefined behaviour in
the source).  `mallocOk` tells whether `malloc`/`calloc` succeeds, `newOk`
whether `new (nothrow) XImage` succeeds and `junk` supplies the
uninitialized bytes `malloc` returns. -/
def XImage.Allocate (width height format : Int) (zeroInitialize : Bool)
    (mallocOk newOk : Bool) (junk : Nat → Nat) : Option XImage :=
  let stride : Int :=
    (XImageBytesPerStride (toUInt32Val (width * (XImageBitsPerPixel format : Int))) : Int)
  let size : Nat := (height * stride).toNat
  let data : Option (List Nat) :=
    if mallocOk then
      some (if zeroInitialize then List.replicate size 0 else (List.range size).map junk)
    else
      none
  match data with
  | some buf => if newOk then some ⟨some buf, width, height, stride, format, true⟩ else none
  | none => none

/-- XImage::Create: wraps an existing buffer, never allocating pixel memory;
the only failure is `new (nothrow)` failing to build the handle object. -/
def XImage.Create (data : Option (List Nat)) (width height stride format : Int)
    (newOk : Bool) : Option XImage :=
  if newOk then some ⟨data, width, height, stride, format, false⟩ else none

/-- Reading one byte of a buffer at a (possibly negative) pointer offset;
out-of-range reads — undefined behaviour in the source — yield 0. -/
def byteAt (buf : List Nat) (i : Int) : Nat :=
  if 0 ≤ i then buf.getD i.toNat 0 else 0

/-- Effect of `memcpy( dst + dstOff, src + srcOff, len )` on the destination
buffer: bytes inside the written window come from the source, all others
keep their value.  Writes outside the destination allocation — undefined
behaviour in the source — are dropped. -/
def memcpyBytes (dst src : List Nat) (dstOff srcOff : Int) (len : Nat) : List Nat :=
  (List.range dst.length).map fun (i : Nat) =>
    if dstOff ≤ (i : Int) ∧ (i : Int) < dstOff + (len : Int) then
      byteAt src (srcOff + ((i : Int) - dstOff))
    else
      dst.getD i 0

/-- The row loop of XImage::CopyData: after `n` iterations the rows
`0, …, n-1` have been copied, row `y` being read at source offset
`y * srcStride` and written at destination offset `y * dstStride`,
`lineSize` bytes each. -/
def copyRows (src : List Nat) (srcStride dstStride : Int) (lineSize : Nat) :
    Nat → List Nat → List Nat
  | 0, dst => dst
  | y + 1, dst =>
      memcpyBytes (copyRows src srcStride dstStride lineSize y dst) src
        ((y : Int) * dstStride) ((y : Int) * srcStride) lineSize

/-- XImage::CopyData.  Returns the error code together with the (possibly
updated) destination handle; the error branches leave the destination
exactly as it was. -/
def XImage.CopyData (img : XImage) (copyTo : Option XImage) : XError × Option XImage :=
  match copyTo with
  | none => (XError.NullPointer, none)
  | some dst =>
    match img.mData, dst.mData with
    | none, _ => (XError.NullPointer, some dst)
    | some _, none => (XError.NullPointer, some dst)
    | some srcBuf, some dstBuf =>
      if img.mWidth ≠ dst.mWidth ∨ img.mHeight ≠ dst.mHeight ∨ img.mFormat ≠ dst.mFormat then
        (XError.ImageParametersMismatch, some dst)
      else
        let lineSize :=
          XImageBytesPerLine (toUInt32Val (img.mWidth * (XImageBitsPerPixel img.mFormat : Int)))
        (XError.Success,
          some { dst with
            mData := some (copyRows srcBuf img.mStride dst.mStride lineSize
              img.mHeight.toNat dstBuf) })

/-- XImage::Clone: empty handle when the source has no data; otherwise a
fresh allocation of the same geometry and format, filled by CopyData, the
clone being dropped again if CopyData fails. -/
def XImage.Clone (img : XImage) (mallocOk newOk : Bool) (junk : Nat → Nat) :
    Option XImage :=
  match img.mData with
  | none => none
  | some _ =>
    match XImage.Allocate img.mWidth img.mHeight img.mFormat false mallocOk newOk junk with
    | none => none
    | some c =>
      match img.CopyData (some c) with
      | (XError.Success, cNew) => cNew
      | _ => none

/-- The branch condition of XImage::CopyDataOrClone: the destination handle
is empty, or its width, height or format differs from the source. -/
def needsClone (img : XImage) (copyTo : Option XImage) : Bool :=
  match copyTo with
  | none => true
  | some d => d.mWidth != img.mWidth || d.mHeight != img.mHeight || d.mFormat != img.mFormat

/-- XImage::CopyDataOrClone: replace the destination by a clone when it is
empty or mismatched (reporting `OutOfMemory` when the clone comes back
empty), otherwise copy in place via CopyData. -/
def XImage.CopyDataOrClone (img : XImage) (copyTo : Option XImage)
    (mallocOk newOk : Bool) (junk : Nat → Nat) : XError × Option XImage :=
  if needsClone img copyTo then
    match img.Clone mallocOk newOk junk with
    | none => (XError.OutOfMemory, none)
    | some c => (XError.Success, some c)
  else
    img.CopyData copyTo

/-! ### Derived size expressions and concrete fixtures -/

/-- The packed line size CopyData computes for a source image:
`XImageBytesPerLine( mWidth * XImageBitsPerPixel( mFormat ) )`. -/
def lineSizeOf (img : XImage) : Nat :=
  XImageBytesPerLine (toUInt32Val (img.mWidth * (XImageBitsPerPixel img.mFormat : Int)))

/-- The stride Allocate computes for a given width and format:
`XImageBytesPerStride( width * XImageBitsPerPixel( format ) )`. -/
def strideFor (width format : Int) : Nat :=
  XImageBytesPerStride (toUInt32Val (width * (XImageBitsPerPixel format : Int)))

/-- Source buffer of the C2 witness: a 3 by 3 RGBA32 image with stride 12
holding bytes 1 to 36. -/
def wit2SrcBuf : List Nat := (List.range 36).map (fun i => i + 1)

/-- Destination buffer of the C2 witness: 48 bytes of the value 9 (stride
16, so four padding bytes per row). -/
def wit2DstBuf : List Nat := List.replicate 48 9

/-- Source image of the C2 witness. -/
def wit2Src : XImage := ⟨some wit2SrcBuf, 3, 3, 12, 3, true⟩

/-- Destination image of the C2 witness. -/
def wit2Dst : XImage := ⟨some wit2DstBuf, 3, 3, 16, 3, false⟩

/-- Buffer of a width-536870909 grayscale image satisfying the data model
invariants: stride 536870912 (at least one packed line, 4-byte aligned),
one row, `stride * height` bytes. -/
def cexBuf : List Nat := List.replicate 536870912 1

/-- A valid one-row grayscale image wide enough that
`width * bitsPerPixel = 4294967272` wraps the 32-bit stride computation. -/
def cexSrc : XImage := ⟨some cexBuf, 536870909, 1, 536870912, 1, true⟩

/-- Buffer of the C5 witness: the 32 bytes a 5 by 2 RGB24 allocation
holds. -/
def wit5Buf : List Nat := (List.range 32).map (fun _ => 0)

/-! ### Arithmetic facts about the format metadata functions -/

/-- Clearing the low five bits of a 32-bit value rounds it down to a
multiple of 32: the mask 0xFFFFFFE0 is the 32-bit complement of 31. -/
theorem and_mask32 (x : Nat) (hx : x < 4294967296) :
    x &&& 0xFFFFFFE0 = x / 32 * 32 := by
  have hmask : (0xFFFFFFE0 : Nat) = (2 ^ 27 - 1) <<< 5 := by decide
  have hdiv : x / 32 * 32 = (x >>> 5) <<< 5 := by
    rw [Nat.shiftRight_eq_div_pow, Nat.shiftLeft_eq]
  rw [hmask, hdiv]
  apply Nat.eq_of_testBit_eq
  intro i
  rw [Nat.testBit_and, Nat.testBit_shiftLeft, Nat.testBit_shiftLeft,
    Nat.testBit_shiftRight, Nat.testBit_two_pow_sub_one]
  by_cases h5 : 5 ≤ i
  · by_cases h32 : i < 32
    · have heq : 5 + (i - 5) = i := by omega
      simp [ge_iff_le, h5, heq, show i - 5 < 27 by omega]
    · have hx2 : x < 2 ^ i :=
        lt_of_lt_of_le (by omega : x < 2 ^ 32) (Nat.pow_le_pow_right (by norm_num) (by omega))
      have hxbit : x.testBit i = false := Nat.testBit_lt_two_pow hx2
      have hxbit2 : x.testBit (5 + (i - 5)) = false := by
        have heq : 5 + (i - 5) = i := by omega
        rw [heq]; exact hxbit
      simp [hxbit, hxbit2]
  · simp [ge_iff_le, h5]

/-- On inputs whose 32-bit computation does not wrap around,
XImageBytesPerStride is the bit width rounded up to a 32-bit boundary,
expressed in bytes. -/
theorem bytesPerStride_eq (b : Nat) (hb : b + 31 < 4294967296) :
    XImageBytesPerStride b = (b + 31) / 32 * 4 := by
  unfold XImageBytesPerStride
  rw [Nat.mod_eq_of_lt (by omega), Nat.mod_eq_of_lt (by omega),
    and_mask32 _ (by omega), Nat.shiftRight_eq_div_pow]
  omega

/-- On inputs whose 32-bit computation does not wrap around,
XImageBytesPerLine is the bit width rounded up to a whole byte. -/
theorem bytesPerLine_eq (b : Nat) (hb : b + 7 < 4294967296) :
    XImageBytesPerLine b = (b + 7) / 8 := by
  unfold XImageBytesPerLine
  rw [Nat.mod_eq_of_lt (by omega), Nat.mod_eq_of_lt (by omega),
    Nat.shiftRight_eq_div_pow]

/-- Without 32-bit overflow the stride dominates the packed line size. -/
theorem line_le_stride (b : Nat) (hb : b + 31 < 4294967296) :
    XImageBytesPerLine b ≤ XImageBytesPerStride b := by
  rw [bytesPerStride_eq b hb, bytesPerLine_eq b (by omega)]
  omega

/-- The stride is always a multiple of four bytes, overflow or not. -/
theorem stride_mod_four (b : Nat) : XImageBytesPerStride b % 4 = 0 := by
  unfold XImageBytesPerStride
  rw [and_mask32 _ (Nat.mod_lt _ (by norm_num)), Nat.shiftRight_eq_div_pow]
  omega

/-! ### Buffer lemmas: memcpy windows and the row-copy loop -/

/-- Reading below the length of a list with getD is reading the element. -/
theorem getD_lt {l : List Nat} {i : Nat} (h : i < l.length) : l.getD i 0 = l[i] := by
  rw [List.getD_eq_getElem?_getD, List.getElem?_eq_getElem h]
  rfl

/-- Reading at or beyond the length of a list with getD gives the default. -/
theorem getD_ge {l : List Nat} {i : Nat} (h : l.length ≤ i) : l.getD i 0 = 0 := by
  rw [List.getD_eq_getElem?_getD, List.getElem?_eq_none h]
  rfl

/-- A memcpy window never changes the length of the destination buffer. -/
theorem memcpyBytes_length (dst src : List Nat) (dOff sOff : Int) (len : Nat) :
    (memcpyBytes dst src dOff sOff len).length = dst.length := by
  simp [memcpyBytes]

/-- Byte-level characterisation of a memcpy window: inside the window the
byte comes from the source, outside (and outside the allocation) the
destination is unchanged. -/
theorem memcpyBytes_getD (dst src : List Nat) (dOff sOff : Int) (len : Nat) (i : Nat) :
    (memcpyBytes dst src dOff sOff len).getD i 0 =
      if i < dst.length ∧ dOff ≤ (i : Int) ∧ (i : Int) < dOff + (len : Int) then
        byteAt src (sOff + ((i : Int) - dOff))
      else dst.getD i 0 := by
  by_cases hi : i < dst.length
  · have hlen : i < (memcpyBytes dst src dOff sOff len).length := by
      rw [memcpyBytes_length]; exact hi
    rw [getD_lt hlen]
    unfold memcpyBytes
    rw [List.getElem_map, List.getElem_range]
    by_cases hwin : dOff ≤ (i : Int) ∧ (i : Int) < dOff + (len : Int)
    · rw [if_pos hwin, if_pos ⟨hi, hwin⟩]
    · rw [if_neg hwin, if_neg (by tauto)]
  · have h1 : (memcpyBytes dst src dOff sOff len).length ≤ i := by
      rw [memcpyBytes_length]; omega
    rw [getD_ge h1, if_neg (by tauto), getD_ge (by omega)]

/-- The row-copy loop never changes the length of the destination buffer. -/
theorem copyRows_length (src : List Nat) (ss ds : Int) (ls n : Nat) (dst : List Nat) :
    (copyRows src ss ds ls n dst).length = dst.length := by
  induction n with
  | zero => rfl
  | succ y ih => rw [copyRows, memcpyBytes_length, ih]

/-- Bytes that sit in none of the written row windows keep their value
through the row-copy loop: the loop leaves the per-row padding (and
everything else outside the copied windows) untouched. -/
theorem copyRows_getD_untouched (src : List Nat) (ss ds : Int) (ls n : Nat)
    (dst : List Nat) (i : Nat)
    (h : ∀ y, y < n → ¬((y : Int) * ds ≤ (i : Int) ∧ (i : Int) < (y : Int) * ds + (ls : Int))) :
    (copyRows src ss ds ls n dst).getD i 0 = dst.getD i 0 := by
  induction n with
  | zero => rfl
  | succ m ih =>
    rw [copyRows, memcpyBytes_getD,
      if_neg (fun hc => h m (by omega) ⟨hc.2.1, hc.2.2⟩)]
    exact ih (fun y hy => h y (by omega))

/-- Bytes inside the window of row `y` end up holding the corresponding
source byte, provided the destination rows do not overlap
(`ls ≤ ds`) and the write lands inside the destination buffer. -/
theorem copyRows_getD_row (src : List Nat) (ss ds : Nat) (ls n : Nat) (dst : List Nat)
    (y j : Nat) (hy : y < n) (hj : j < ls) (hls : ls ≤ ds)
    (hbound : y * ds + j < dst.length) :
    (copyRows src (ss : Int) (ds : Int) ls n dst).getD (y * ds + j) 0 =
      src.getD (y * ss + j) 0 := by
  induction n with
  | zero => omega
  | succ m ih =>
    rw [copyRows, memcpyBytes_getD]
    by_cases hym : y = m
    · subst hym
      rw [if_pos ⟨by rw [copyRows_length]; exact hbound, by push_cast; omega, by push_cast; omega⟩]
      have hoff : (y : Int) * (ss : Int) + (((y * ds + j : Nat) : Int) - (y : Int) * (ds : Int)) =
          ((y * ss + j : Nat) : Int) := by push_cast; ring
      rw [hoff]
      unfold byteAt
      rw [if_pos (Int.natCast_nonneg _), Int.toNat_natCast]
    · have hylt : y < m := by omega
      rw [if_neg (by
        intro hc
        have h1 : ((y * ds + j : Nat) : Int) < (m : Int) * (ds : Int) := by
          push_cast
          have : (y + 1) * ds ≤ m * ds := Nat.mul_le_mul_right ds (by omega)
          push_cast at this
          nlinarith [hj, hls]
        omega)]
      exact ih hylt

/-! ### Characterisation of CopyData -/

/-- When both buffers exist and the geometry matches, CopyData succeeds and
replaces the destination bytes by the result of the row-copy loop. -/
theorem copyData_eq (img dst : XImage) (sbuf dbuf : List Nat)
    (hs : img.mData = some sbuf) (hd : dst.mData = some dbuf)
    (hw : img.mWidth = dst.mWidth) (hh : img.mHeight = dst.mHeight)
    (hf : img.mFormat = dst.mFormat) :
    img.CopyData (some dst) =
      (XError.Success, some { dst with mData := some (copyRows sbuf img.mStride dst.mStride
        (lineSizeOf img) img.mHeight.toNat dbuf) }) := by
  unfold XImage.CopyData lineSizeOf
  simp [hs, hd, hw, hh, hf]

/-- Full byte-level description of a successful CopyData under the data
model invariants (non-negative strides, destination stride at least one
packed line, destination buffer covering `height * stride` bytes): every
row is copied in full, and every destination byte outside the copied
windows is untouched. -/
theorem copyData_rows (img dst : XImage) (sbuf dbuf : List Nat)
    (hs : img.mData = some sbuf) (hd : dst.mData = some dbuf)
    (hw : img.mWidth = dst.mWidth) (hh : img.mHeight = dst.mHeight)
    (hf : img.mFormat = dst.mFormat)
    (hss : 0 ≤ img.mStride) (hds : 0 ≤ dst.mStride)
    (hls : lineSizeOf img ≤ dst.mStride.toNat)
    (hlen : img.mHeight.toNat * dst.mStride.toNat ≤ dbuf.length) :
    ∃ rbuf : List Nat,
      img.CopyData (some dst) = (XError.Success, some { dst with mData := some rbuf }) ∧
      rbuf.length = dbuf.length ∧
      (∀ y, y < img.mHeight.toNat → ∀ j, j < lineSizeOf img →
        rbuf.getD (y * dst.mStride.toNat + j) 0 = sbuf.getD (y * img.mStride.toNat + j) 0) ∧
      (∀ i, i < dbuf.length →
        (∀ y, y < img.mHeight.toNat →
          ¬(y * dst.mStride.toNat ≤ i ∧ i < y * dst.mStride.toNat + lineSizeOf img)) →
        rbuf.getD i 0 = dbuf.getD i 0) := by
  have hss2 : img.mStride = ((img.mStride.toNat : Nat) : Int) := (Int.toNat_of_nonneg hss).symm
  have hds2 : dst.mStride = ((dst.mStride.toNat : Nat) : Int) := (Int.toNat_of_nonneg hds).symm
  refine ⟨_, copyData_eq img dst sbuf dbuf hs hd hw hh hf, copyRows_length _ _ _ _ _ _,
    ?_, ?_⟩
  · intro y hy j hj
    rw [hss2, hds2]
    exact copyRows_getD_row sbuf img.mStride.toNat dst.mStride.toNat (lineSizeOf img)
      img.mHeight.toNat dbuf y j hy hj hls
      (by
        have h1 : y * dst.mStride.toNat + j < (y + 1) * dst.mStride.toNat := by
          have := Nat.lt_of_lt_of_le hj hls
          nlinarith
        have h2 : (y + 1) * dst.mStride.toNat ≤ img.mHeight.toNat * dst.mStride.toNat :=
          Nat.mul_le_mul_right _ (by omega)
        omega)
  · intro i hi hout
    apply copyRows_getD_untouched
    intro y hy hc
    apply hout y hy
    rw [hds2] at hc
    constructor
    · have := hc.1
      have hcast : ((y * dst.mStride.toNat : Nat) : Int) ≤ (i : Int) := by push_cast; push_cast at this; omega
      exact_mod_cast hcast
    · have := hc.2
      have hcast : (i : Int) < ((y * dst.mStride.toNat + lineSizeOf img : Nat) : Int) := by
        push_cast; push_cast at this; omega
      exact_mod_cast hcast

/-! ### Characterisation of Allocate and Clone -/

/-- When both the byte allocation and the handle construction succeed,
Allocate produces an owned image with the requested geometry, the computed
stride, and a buffer of exactly `height * stride` bytes. -/
theorem allocate_some (width height format : Int) (zi : Bool) (junk : Nat → Nat) :
    ∃ buf : List Nat,
      XImage.Allocate width height format zi true true junk =
        some ⟨some buf, width, height, (strideFor width format : Int), format, true⟩ ∧
      buf.length = (height * (strideFor width format : Int)).toNat := by
  unfold XImage.Allocate strideFor
  cases zi <;> simp

/-- Allocate fails exactly when one of the two underlying allocations
fails. -/
theorem allocate_none (width height format : Int) (zi : Bool) (mOk nOk : Bool)
    (junk : Nat → Nat) (h : mOk = false ∨ nOk = false) :
    XImage.Allocate width height format zi mOk nOk junk = none := by
  unfold XImage.Allocate
  rcases h with h | h
  · subst h; simp
  · subst h
    cases mOk <;> simp

/-- Clone returns the empty handle exactly when the source has no data or
one of the two allocations inside Allocate fails; the row-copy step cannot
fail once the fresh allocation has the source geometry. -/
theorem clone_none_iff (img : XImage) (mOk nOk : Bool) (junk : Nat → Nat) :
    img.Clone mOk nOk junk = none ↔
      (img.mData = none ∨ mOk = false ∨ nOk = false) := by
  constructor
  · intro hnone
    by_cases hd : img.mData = none
    · exact Or.inl hd
    · by_cases hm : mOk = true
      · by_cases hn : nOk = true
        · exfalso
          rcases Option.ne_none_iff_exists.mp hd with ⟨sbuf, hsbuf⟩
          subst hm; subst hn
          obtain ⟨buf, halloc, -⟩ := allocate_some img.mWidth img.mHeight img.mFormat false junk
          unfold XImage.Clone at hnone
          rw [← hsbuf, halloc] at hnone
          dsimp only at hnone
          rw [copyData_eq img
              ⟨some buf, img.mWidth, img.mHeight, (strideFor img.mWidth img.mFormat : Int),
                img.mFormat, true⟩
              sbuf buf hsbuf.symm rfl rfl rfl rfl] at hnone
          simp at hnone
        · exact Or.inr (Or.inr (by revert hn; cases nOk <;> simp))
      · exact Or.inr (Or.inl (by revert hm; cases mOk <;> simp))
  · intro h
    rcases h with h | h
    · unfold XImage.Clone
      rw [h]
    · have halloc := allocate_none img.mWidth img.mHeight img.mFormat false mOk nOk junk h
      unfold XImage.Clone
      rw [halloc]
      cases himg : img.mData <;> rfl

/-- Full description of a successful Clone under the data model invariants:
a fresh owned image with the source geometry and format, the freshly
computed stride, a buffer of exactly `height * stride` bytes, whose rows
agree with the source rows on the packed line size.  The overflow-freedom
hypothesis keeps the 32-bit stride computation from wrapping. -/
theorem clone_spec_helper (img : XImage) (sbuf : List Nat) (junk : Nat → Nat)
    (hd : img.mData = some sbuf) (h0h : 0 ≤ img.mHeight) (h0s : 0 ≤ img.mStride)
    (hov : toUInt32Val (img.mWidth * (XImageBitsPerPixel img.mFormat : Int)) + 31 < 4294967296) :
    ∃ c : XImage, ∃ cbuf : List Nat,
      img.Clone true true junk = some c ∧
      c.mData = some cbuf ∧
      c.mWidth = img.mWidth ∧ c.mHeight = img.mHeight ∧ c.mFormat = img.mFormat ∧
      c.mOwnMemory = true ∧
      c.mStride = (strideFor img.mWidth img.mFormat : Int) ∧
      cbuf.length = img.mHeight.toNat * strideFor img.mWidth img.mFormat ∧
      lineSizeOf img ≤ strideFor img.mWidth img.mFormat ∧
      (∀ y, y < img.mHeight.toNat → ∀ j, j < lineSizeOf img →
        cbuf.getD (y * strideFor img.mWidth img.mFormat + j) 0 =
          sbuf.getD (y * img.mStride.toNat + j) 0) := by
  have hls : lineSizeOf img ≤ strideFor img.mWidth img.mFormat := by
    unfold lineSizeOf strideFor
    exact line_le_stride _ hov
  obtain ⟨buf, halloc, hlen⟩ := allocate_some img.mWidth img.mHeight img.mFormat false junk
  have hcast : ((img.mHeight.toNat * strideFor img.mWidth img.mFormat : Nat) : Int) =
      img.mHeight * (strideFor img.mWidth img.mFormat : Int) := by
    rw [Nat.cast_mul, Int.toNat_of_nonneg h0h]
  have hlen2 : buf.length = img.mHeight.toNat * strideFor img.mWidth img.mFormat := by
    rw [hlen, ← hcast, Int.toNat_natCast]
  obtain ⟨rbuf, hcopy, hrlen, hrows, -⟩ :=
    copyData_rows img ⟨some buf, img.mWidth, img.mHeight, (strideFor img.mWidth img.mFormat : Int),
        img.mFormat, true⟩ sbuf buf hd rfl rfl rfl rfl h0s (Int.natCast_nonneg _)
      (by rw [Int.toNat_natCast]; exact hls)
      (by rw [Int.toNat_natCast, ← hlen2])
  refine ⟨⟨some rbuf, img.mWidth, img.mHeight, (strideFor img.mWidth img.mFormat : Int),
      img.mFormat, true⟩, rbuf, ?_, rfl, rfl, rfl, rfl, rfl, rfl,
      by rw [hrlen, hlen2], hls, ?_⟩
  · unfold XImage.Clone
    rw [hd, halloc]
    dsimp only
    rw [hcopy]
  · intro y hy j hj
    have hr := hrows y hy j hj
    rw [Int.toNat_natCast] at hr
    exact hr

/-! ### Claim C6 -/

/-- C6: for every format tag in the range of a 32-bit `int`,
XImageBitsPerPixel returns 0, 8, 24, 32, 8 for the in-range tags 0 through
4, and 0 for every other tag — including negative tags, which the `int`
versus `size_t` comparison sends into the out-of-range branch rather than
into an out-of-bounds table access (the embedding is a total function, so
no out-of-bounds read exists). -/
theorem bitsPerPixel_table_spec (t : Int)
    (hlo : -2147483648 ≤ t) (hhi : t < 2147483648) :
    (t = 0 → XImageBitsPerPixel t = 0) ∧
    (t = 1 → XImageBitsPerPixel t = 8) ∧
    (t = 2 → XImageBitsPerPixel t = 24) ∧
    (t = 3 → XImageBitsPerPixel t = 32) ∧
    (t = 4 → XImageBitsPerPixel t = 8) ∧
    ((t < 0 ∨ 5 ≤ t) → XImageBitsPerPixel t = 0) := by
  refine ⟨?_, ?_, ?_, ?_, ?_, ?_⟩ <;> intro ht
  · subst ht; decide
  · subst ht; decide
  · subst ht; decide
  · subst ht; decide
  · subst ht; decide
  · have h5 : 5 ≤ ((t % (18446744073709551616 : Int)).toNat) := by omega
    simp only [XImageBitsPerPixel]
    rw [if_pos h5]

/-- Witness for C6 at the concrete tags 3 and -2. -/
theorem bitsPerPixel_table_spec_witness :
    XImageBitsPerPixel 3 = 32 ∧ XImageBitsPerPixel (-2) = 0 :=
  ⟨(bitsPerPixel_table_spec 3 (by decide) (by decide)).2.2.2.1 rfl,
   (bitsPerPixel_table_spec (-2) (by decide) (by decide)).2.2.2.2.2 (Or.inl (by decide))⟩

/-! ### Claim C9 -/

/-- C9: with zero width, or a format whose BitsPerPixel is 0, the computed
stride is 0 and the total buffer size is 0, and (given that the underlying
zero-byte allocation primitives succeed, as they do on mainstream
allocators) Allocate succeeds and yields a valid image with a zero-byte
buffer — which therefore contains no copyable row bytes. -/
theorem allocate_zero_size_spec (w h fmt : Int) (zi : Bool) (junk : Nat → Nat)
    (hzero : w = 0 ∨ XImageBitsPerPixel fmt = 0) :
    strideFor w fmt = 0 ∧
    XImage.Allocate w h fmt zi true true junk = some ⟨some [], w, h, 0, fmt, true⟩ := by
  have hbits : toUInt32Val (w * (XImageBitsPerPixel fmt : Int)) = 0 := by
    rcases hzero with hz | hz <;> rw [hz] <;> simp [toUInt32Val]
  have hstride : strideFor w fmt = 0 := by
    unfold strideFor
    rw [hbits]
    decide
  refine ⟨hstride, ?_⟩
  obtain ⟨buf, halloc, hlen⟩ := allocate_some w h fmt zi junk
  rw [halloc, hstride]
  have hbuf : buf.length = 0 := by
    rw [hlen, hstride]
    simp
  rw [List.length_eq_zero.mp hbuf]
  rfl

/-- Witness for C9 at width 0, height 3, format RGB24. -/
theorem allocate_zero_size_spec_witness :
    strideFor 0 2 = 0 ∧
    XImage.Allocate 0 3 2 false true true (fun _ => 5) = some ⟨some [], 0, 3, 0, 2, true⟩ :=
  allocate_zero_size_spec 0 3 2 false (fun _ => 5) (Or.inl rfl)

/-! ### Claim C10 -/

/-- C10: when the source has no data and the destination handle is empty
or mismatched, CopyDataOrClone takes the clone branch, the clone of the
data-less source comes back as the empty handle — indistinguishable from
an allocation failure — so the call reports OutOfMemory and leaves the
destination handle empty. -/
theorem copyDataOrClone_nullSource_spec (img : XImage) (copyTo : Option XImage)
    (mOk nOk : Bool) (junk : Nat → Nat)
    (hd : img.mData = none) (hmm : needsClone img copyTo = true) :
    img.Clone mOk nOk junk = none ∧
    img.CopyDataOrClone copyTo mOk nOk junk = (XError.OutOfMemory, none) := by
  have hclone : img.Clone mOk nOk junk = none :=
    (clone_none_iff img mOk nOk junk).mpr (Or.inl hd)
  refine ⟨hclone, ?_⟩
  unfold XImage.CopyDataOrClone
  rw [hmm, hclone]
  rfl

/-- Witness for C10: a data-less source copied toward an empty handle. -/
theorem copyDataOrClone_nullSource_spec_witness :
    (XImage.mk none 4 4 16 3 true).CopyDataOrClone none true true (fun _ => 0) =
      (XError.OutOfMemory, none) :=
  (copyDataOrClone_nullSource_spec ⟨none, 4, 4, 16, 3, true⟩ none true true
    (fun _ => 0) rfl rfl).2

/-! ### Claim C7 -/

/-- C7: images produced by Allocate own their memory and images produced by
Create do not; the flag is never mutated (CopyData, the only in-place
operation, preserves it); destruction frees the buffer exactly when the
image owns its memory and the data pointer is non-null — so destroying a
wrapped image never frees the wrapped pointer, and destroying an allocated
image always frees its buffer. -/
theorem ownership_spec :
    (∀ (w h f : Int) (zi mOk nOk : Bool) (junk : Nat → Nat) (img : XImage),
      XImage.Allocate w h f zi mOk nOk junk = some img →
        img.mOwnMemory = true ∧ img.destructorFrees = true) ∧
    (∀ (data : Option (List Nat)) (w h s f : Int) (nOk : Bool) (img : XImage),
      XImage.Create data w h s f nOk = some img →
        img.mOwnMemory = false ∧ img.destructorFrees = false) ∧
    (∀ (img : XImage), img.destructorFrees = true ↔
      (img.mOwnMemory = true ∧ img.mData ≠ none)) ∧
    (∀ (img d d' : XImage) (e : XError),
      img.CopyData (some d) = (e, some d') → d'.mOwnMemory = d.mOwnMemory) := by
  refine ⟨?_, ?_, ?_, ?_⟩
  · intro w h f zi mOk nOk junk img halloc
    unfold XImage.Allocate at halloc
    cases mOk <;> simp at halloc
    cases nOk <;> simp at halloc
    rw [← halloc]
    constructor <;> rfl
  · intro data w h s f nOk img hcreate
    unfold XImage.Create at hcreate
    cases nOk <;> simp at hcreate
    rw [← hcreate]
    constructor <;> rfl
  · intro img
    unfold XImage.destructorFrees
    cases himg : img.mData <;> cases hown : img.mOwnMemory <;> simp [himg, hown]
  · intro img d d' e hcopy
    unfold XImage.CopyData at hcopy
    dsimp only at hcopy
    cases hs : img.mData <;> rw [hs] at hcopy
    · have h2 := congrArg Prod.snd hcopy
      simp only [Option.some.injEq] at h2
      rw [← h2]
    · cases hd : d.mData <;> rw [hd] at hcopy
      · have h2 := congrArg Prod.snd hcopy
        simp only [Option.some.injEq] at h2
        rw [← h2]
      · dsimp only at hcopy
        by_cases hmm : img.mWidth ≠ d.mWidth ∨ img.mHeight ≠ d.mHeight ∨ img.mFormat ≠ d.mFormat
        · rw [if_pos hmm] at hcopy
          have h2 := congrArg Prod.snd hcopy
          simp only [Option.some.injEq] at h2
          rw [← h2]
        · rw [if_neg hmm] at hcopy
          have h2 := congrArg Prod.snd hcopy
          simp only [Option.some.injEq] at h2
          rw [← h2]

/-- Witness for C7 at a concrete successful allocation: a 1 by 1
grayscale image, which comes out owning its memory and freeing it on
destruction. -/
theorem ownership_spec_witness :
    (XImage.mk (some [0, 0, 0, 0]) 1 1 4 1 true).mOwnMemory = true ∧
    (XImage.mk (some [0, 0, 0, 0]) 1 1 4 1 true).destructorFrees = true :=
  ownership_spec.1 1 1 1 false true true (fun _ => 0)
    ⟨some [0, 0, 0, 0], 1, 1, 4, 1, true⟩ (by decide)

/-! ### Claim C3 -/

/-- C3: CopyData returns NullPointer when either buffer is missing (or the
destination handle is empty), ImageParametersMismatch when both buffers
exist but width, height or format differ, Success otherwise; and every
failure leaves the destination handle — hence its buffer bytes — exactly
as it was: the copy is all rows or none attempted. -/
theorem copyData_error_spec (img : XImage) (copyTo : Option XImage) :
    ((img.mData = none ∨ copyTo = none ∨ (∃ d, copyTo = some d ∧ d.mData = none)) →
      (img.CopyData copyTo).1 = XError.NullPointer) ∧
    (∀ d, copyTo = some d → img.mData ≠ none → d.mData ≠ none →
      (img.mWidth ≠ d.mWidth ∨ img.mHeight ≠ d.mHeight ∨ img.mFormat ≠ d.mFormat) →
      (img.CopyData copyTo).1 = XError.ImageParametersMismatch) ∧
    (∀ d, copyTo = some d → img.mData ≠ none → d.mData ≠ none →
      img.mWidth = d.mWidth → img.mHeight = d.mHeight → img.mFormat = d.mFormat →
      (img.CopyData copyTo).1 = XError.Success) ∧
    ((img.CopyData copyTo).1 ≠ XError.Success → (img.CopyData copyTo).2 = copyTo) := by
  cases copyTo with
  | none =>
    refine ⟨fun _ => rfl, ?_, ?_, fun _ => rfl⟩
    · intro d hc; exact Option.noConfusion hc
    · intro d hc; exact Option.noConfusion hc
  | some d =>
    cases hs : img.mData with
    | none =>
      have heq : img.CopyData (some d) = (XError.NullPointer, some d) := by
        unfold XImage.CopyData
        dsimp only
        rw [hs]
      refine ⟨fun _ => by rw [heq], ?_, ?_, fun _ => by rw [heq]⟩
      · intro d2 hd2 hne; exact absurd rfl hne
      · intro d2 hd2 hne; exact absurd rfl hne
    | some sbuf =>
      cases hd : d.mData with
      | none =>
        have heq : img.CopyData (some d) = (XError.NullPointer, some d) := by
          unfold XImage.CopyData
          dsimp only
          rw [hs, hd]
        refine ⟨fun _ => by rw [heq], ?_, ?_, fun _ => by rw [heq]⟩
        · intro d2 hd2 hne1 hne2
          rw [Option.some.injEq] at hd2
          subst hd2
          exact absurd hd hne2
        · intro d2 hd2 hne1 hne2
          rw [Option.some.injEq] at hd2
          subst hd2
          exact absurd hd hne2
      | some dbuf =>
        by_cases hmm : img.mWidth ≠ d.mWidth ∨ img.mHeight ≠ d.mHeight ∨ img.mFormat ≠ d.mFormat
        · have heq : img.CopyData (some d) = (XError.ImageParametersMismatch, some d) := by
            unfold XImage.CopyData
            dsimp only
            rw [hs, hd]
            dsimp only
            rw [if_pos hmm]
          refine ⟨?_, fun _ _ _ _ _ => by rw [heq], ?_, fun _ => by rw [heq]⟩
          · intro hnull
            rcases hnull with h | h | ⟨d2, hd2, h⟩
            · exact Option.noConfusion h
            · exact Option.noConfusion h
            · rw [Option.some.injEq] at hd2
              subst hd2
              rw [hd] at h
              exact Option.noConfusion h
          · intro d2 hd2 hne1 hne2 h1 h2 h3
            rw [Option.some.injEq] at hd2
            subst hd2
            tauto
        · have heq := copyData_eq img d sbuf dbuf hs hd (by tauto) (by tauto) (by tauto)
          refine ⟨?_, ?_, fun _ _ _ _ _ _ _ => by rw [heq], fun hno => absurd (by rw [heq]) hno⟩
          · intro hnull
            rcases hnull with h | h | ⟨d2, hd2, h⟩
            · exact Option.noConfusion h
            · exact Option.noConfusion h
            · rw [Option.some.injEq] at hd2
              subst hd2
              rw [hd] at h
              exact Option.noConfusion h
          · intro d2 hd2 hne1 hne2 hmm2
            rw [Option.some.injEq] at hd2
            subst hd2
            exact absurd hmm2 hmm

/-- Witness for C3: copying toward an empty destination handle yields
NullPointer. -/
theorem copyData_error_spec_witness :
    ((XImage.mk (some [7]) 1 1 4 1 true).CopyData none).1 = XError.NullPointer :=
  (copyData_error_spec ⟨some [7], 1, 1, 4, 1, true⟩ none).1 (Or.inr (Or.inl rfl))

/-! ### Claim C2 -/

/-- C2: given the data model invariants (matching geometry, non-negative
strides, destination stride at least one packed line, destination buffer
covering `height * stride` bytes), CopyData copies exactly
`XImageBytesPerLine(width * bitsPerPixel)` bytes per row, reading row `y`
at source offset `y * sourceStride` and writing it at destination offset
`y * destinationStride`, and leaves every destination byte outside those
per-row windows — the stride padding — unchanged. -/
theorem copyData_row_copy_spec (img dst : XImage) (sbuf dbuf : List Nat)
    (hs : img.mData = some sbuf) (hd : dst.mData = some dbuf)
    (hw : img.mWidth = dst.mWidth) (hh : img.mHeight = dst.mHeight)
    (hf : img.mFormat = dst.mFormat)
    (hss : 0 ≤ img.mStride) (hds : 0 ≤ dst.mStride)
    (hls : lineSizeOf img ≤ dst.mStride.toNat)
    (hlen : img.mHeight.toNat * dst.mStride.toNat ≤ dbuf.length) :
    ∃ rbuf : List Nat,
      img.CopyData (some dst) = (XError.Success, some { dst with mData := some rbuf }) ∧
      rbuf.length = dbuf.length ∧
      (∀ y, y < img.mHeight.toNat → ∀ j, j < lineSizeOf img →
        rbuf.getD (y * dst.mStride.toNat + j) 0 = sbuf.getD (y * img.mStride.toNat + j) 0) ∧
      (∀ i, i < dbuf.length →
        (∀ y, y < img.mHeight.toNat →
          ¬(y * dst.mStride.toNat ≤ i ∧ i < y * dst.mStride.toNat + lineSizeOf img)) →
        rbuf.getD i 0 = dbuf.getD i 0) :=
  copyData_rows img dst sbuf dbuf hs hd hw hh hf hss hds hls hlen

/-- Witness for C2: the concrete stride-12-to-stride-16 scenario of the
specification, with all hypotheses discharged by computation. -/
theorem copyData_row_copy_spec_witness :
    (lineSizeOf wit2Src ≤ wit2Dst.mStride.toNat ∧
      wit2Src.mHeight.toNat * wit2Dst.mStride.toNat ≤ wit2DstBuf.length) ∧
    (∃ rbuf : List Nat,
      wit2Src.CopyData (some wit2Dst) =
        (XError.Success, some { wit2Dst with mData := some rbuf }) ∧
      rbuf.length = wit2DstBuf.length ∧
      (∀ y, y < wit2Src.mHeight.toNat → ∀ j, j < lineSizeOf wit2Src →
        rbuf.getD (y * wit2Dst.mStride.toNat + j) 0 =
          wit2SrcBuf.getD (y * wit2Src.mStride.toNat + j) 0) ∧
      (∀ i, i < wit2DstBuf.length →
        (∀ y, y < wit2Src.mHeight.toNat →
          ¬(y * wit2Dst.mStride.toNat ≤ i ∧
            i < y * wit2Dst.mStride.toNat + lineSizeOf wit2Src)) →
        rbuf.getD i 0 = wit2DstBuf.getD i 0)) :=
  ⟨⟨by decide, by decide⟩,
    copyData_row_copy_spec wit2Src wit2Dst wit2SrcBuf wit2DstBuf rfl rfl rfl rfl rfl
      (by decide) (by decide) (by decide) (by decide)⟩

/-! ### Claim C1 -/

/-- CopyData applied to a non-empty destination handle always returns a
non-empty handle to an image whose every field except the buffer content is
that of the old destination, the buffer keeping its length: the in-place
path never reallocates. -/
theorem copyData_snd_fields (img d : XImage) :
    ∃ e : XError, ∃ d' : XImage,
      img.CopyData (some d) = (e, some d') ∧
      d'.mWidth = d.mWidth ∧ d'.mHeight = d.mHeight ∧ d'.mStride = d.mStride ∧
      d'.mFormat = d.mFormat ∧ d'.mOwnMemory = d.mOwnMemory ∧
      Option.map List.length d'.mData = Option.map List.length d.mData := by
  unfold XImage.CopyData
  dsimp only
  cases hs : img.mData with
  | none => exact ⟨XError.NullPointer, d, rfl, rfl, rfl, rfl, rfl, rfl, rfl⟩
  | some sbuf =>
    cases hd : d.mData with
    | none => exact ⟨XError.NullPointer, d, rfl, rfl, rfl, rfl, rfl, rfl, by rw [hd]⟩
    | some dbuf =>
      dsimp only
      by_cases hmm : img.mWidth ≠ d.mWidth ∨ img.mHeight ≠ d.mHeight ∨ img.mFormat ≠ d.mFormat
      · rw [if_pos hmm]
        exact ⟨XError.ImageParametersMismatch, d, rfl, rfl, rfl, rfl, rfl, rfl, by rw [hd]⟩
      · rw [if_neg hmm]
        refine ⟨XError.Success, _, rfl, rfl, rfl, rfl, rfl, rfl, ?_⟩
        simp [copyRows_length]

/-- A non-empty Clone result always carries the geometry and format of the
source and owns its memory. -/
theorem clone_some_fields (img : XImage) (mOk nOk : Bool) (junk : Nat → Nat)
    (c : XImage) (hc : img.Clone mOk nOk junk = some c) :
    c.mWidth = img.mWidth ∧ c.mHeight = img.mHeight ∧ c.mFormat = img.mFormat ∧
      c.mOwnMemory = true := by
  unfold XImage.Clone at hc
  cases hs : img.mData with
  | none => rw [hs] at hc; exact Option.noConfusion hc
  | some sbuf =>
    rw [hs] at hc
    cases halloc : XImage.Allocate img.mWidth img.mHeight img.mFormat false mOk nOk junk with
    | none => rw [halloc] at hc; exact Option.noConfusion hc
    | some c0 =>
      rw [halloc] at hc
      dsimp only at hc
      have hc0 : c0.mWidth = img.mWidth ∧ c0.mHeight = img.mHeight ∧
          c0.mFormat = img.mFormat ∧ c0.mOwnMemory = true := by
        unfold XImage.Allocate at halloc
        cases mOk <;> simp at halloc
        cases nOk <;> simp at halloc
        rw [← halloc]
        exact ⟨rfl, rfl, rfl, rfl⟩
      obtain ⟨e, d', hcd, hfw, hfh, hfs, hff, hfo, -⟩ := copyData_snd_fields img c0
      rw [hcd] at hc
      cases e with
      | Success =>
        dsimp only at hc
        rw [Option.some.injEq] at hc
        subst hc
        exact ⟨hfw.trans hc0.1, hfh.trans hc0.2.1, hff.trans hc0.2.2.1,
          hfo.trans hc0.2.2.2⟩
      | NullPointer => exact Option.noConfusion hc
      | ImageParametersMismatch => exact Option.noConfusion hc
      | OutOfMemory => exact Option.noConfusion hc

/-- C1: CopyDataOrClone replaces the destination wholesale by a fresh clone
of the source when the handle is empty or its width, height or format
differs (reporting OutOfMemory exactly when that clone comes back empty),
the fresh destination carrying the source's width, height and format; and
otherwise it hands the very same destination object to CopyData, which
overwrites the buffer in place — every field and the buffer length of the
destination are preserved, so no reallocation takes place. -/
theorem copyDataOrClone_spec (img : XImage) (copyTo : Option XImage)
    (mOk nOk : Bool) (junk : Nat → Nat) :
    (needsClone img copyTo = true →
      (img.Clone mOk nOk junk = none →
        img.CopyDataOrClone copyTo mOk nOk junk = (XError.OutOfMemory, none)) ∧
      (∀ c, img.Clone mOk nOk junk = some c →
        img.CopyDataOrClone copyTo mOk nOk junk = (XError.Success, some c) ∧
        c.mWidth = img.mWidth ∧ c.mHeight = img.mHeight ∧ c.mFormat = img.mFormat)) ∧
    (needsClone img copyTo = false →
      ∀ d, copyTo = some d →
        img.CopyDataOrClone copyTo mOk nOk junk = img.CopyData (some d) ∧
        (∀ e d', img.CopyData (some d) = (e, some d') →
          d'.mWidth = d.mWidth ∧ d'.mHeight = d.mHeight ∧ d'.mStride = d.mStride ∧
          d'.mFormat = d.mFormat ∧ d'.mOwnMemory = d.mOwnMemory ∧
          Option.map List.length d'.mData = Option.map List.length d.mData)) := by
  constructor
  · intro hneed
    constructor
    · intro hclone
      unfold XImage.CopyDataOrClone
      rw [hneed, hclone]
      rfl
    · intro c hclone
      refine ⟨?_, (clone_some_fields img mOk nOk junk c hclone).1,
        (clone_some_fields img mOk nOk junk c hclone).2.1,
        (clone_some_fields img mOk nOk junk c hclone).2.2.1⟩
      unfold XImage.CopyDataOrClone
      rw [hneed, hclone]
      rfl
  · intro hneed d hto
    subst hto
    constructor
    · unfold XImage.CopyDataOrClone
      rw [hneed]
      rfl
    · intro e d' hcd
      obtain ⟨e2, d2, hcd2, hfields⟩ := copyData_snd_fields img d
      rw [hcd2] at hcd
      injection hcd with h1 h2
      injection h2 with h3
      rw [← h3]
      exact hfields

/-- Witness for C1: a source with data and an empty destination handle
takes the replace branch and produces a clone with the source geometry. -/
theorem copyDataOrClone_spec_witness :
    (XImage.mk (some [5, 0, 0, 0]) 1 1 4 1 true).CopyDataOrClone none true true (fun _ => 0) =
      (XError.Success, some ⟨some [5, 0, 0, 0], 1, 1, 4, 1, true⟩) :=
  (((copyDataOrClone_spec ⟨some [5, 0, 0, 0], 1, 1, 4, 1, true⟩ none true true
      (fun _ => 0)).1 rfl).2 ⟨some [5, 0, 0, 0], 1, 1, 4, 1, true⟩ (by decide)).1

/-! ### Claim C5 -/

/-- Counterexample to C5 as stated: at width 536870909 and the 8-bit
format, `width * bitsPerPixel` wraps modulo 2^32, so a succeeding Allocate
produces stride 0, strictly below the packed line size of 536870909
bytes. -/
theorem allocate_stride_overflow_counterexample :
    ∃ img : XImage,
      XImage.Allocate 536870909 1 1 false true true (fun _ => 0) = some img ∧
      img.mStride <
        (XImageBytesPerLine (toUInt32Val (536870909 * (XImageBitsPerPixel 1 : Int))) : Int) := by
  refine ⟨⟨some [], 536870909, 1, 0, 1, true⟩, by rfl, by decide⟩

/-- C5 (amended): for all width and height at least 0, whenever the 32-bit
computation `width * bitsPerPixel + 31` does not wrap modulo 2^32, a
successful Allocate produces an image whose stride equals
`XImageBytesPerStride(width * bitsPerPixel)`, is at least
`XImageBytesPerLine(width * bitsPerPixel)`, is a multiple of 4, and whose
buffer holds exactly `height * stride` bytes. -/
theorem allocate_spec_amended (width height format : Int) (zi : Bool)
    (mOk nOk : Bool) (junk : Nat → Nat)
    (_hw : 0 ≤ width) (hh : 0 ≤ height)
    (hov : toUInt32Val (width * (XImageBitsPerPixel format : Int)) + 31 < 4294967296) :
    ∀ img : XImage, XImage.Allocate width height format zi mOk nOk junk = some img →
      img.mStride = (strideFor width format : Int) ∧
      (XImageBytesPerLine (toUInt32Val (width * (XImageBitsPerPixel format : Int))) : Int) ≤
        img.mStride ∧
      img.mStride % 4 = 0 ∧
      ∃ buf : List Nat, img.mData = some buf ∧ (buf.length : Int) = height * img.mStride := by
  intro img halloc
  have hm : mOk = true := by
    by_contra hmf
    rw [allocate_none width height format zi mOk nOk junk
      (Or.inl (by revert hmf; cases mOk <;> simp))] at halloc
    exact Option.noConfusion halloc
  have hn : nOk = true := by
    by_contra hnf
    rw [allocate_none width height format zi mOk nOk junk
      (Or.inr (by revert hnf; cases nOk <;> simp))] at halloc
    exact Option.noConfusion halloc
  subst hm; subst hn
  obtain ⟨buf, heq, hlen⟩ := allocate_some width height format zi junk
  rw [halloc, Option.some.injEq] at heq
  subst heq
  dsimp only
  refine ⟨rfl, ?_, ?_, buf, rfl, ?_⟩
  · unfold strideFor
    exact_mod_cast line_le_stride _ hov
  · have h4 := stride_mod_four (toUInt32Val (width * (XImageBitsPerPixel format : Int)))
    unfold strideFor
    omega
  · rw [hlen, Int.toNat_of_nonneg (mul_nonneg hh (Int.natCast_nonneg _))]

/-- Witness for C5 at the specification's own scenario Allocate(5,2,RGB24):
stride 16, buffer 32 bytes. -/
theorem allocate_spec_amended_witness :
    (XImage.mk (some wit5Buf) 5 2 16 2 true).mStride = (strideFor 5 2 : Int) ∧
    (XImageBytesPerLine (toUInt32Val (5 * (XImageBitsPerPixel 2 : Int))) : Int) ≤
      (XImage.mk (some wit5Buf) 5 2 16 2 true).mStride ∧
    (XImage.mk (some wit5Buf) 5 2 16 2 true).mStride % 4 = 0 ∧
    ∃ buf : List Nat, (XImage.mk (some wit5Buf) 5 2 16 2 true).mData = some buf ∧
      (buf.length : Int) = 2 * (XImage.mk (some wit5Buf) 5 2 16 2 true).mStride :=
  allocate_spec_amended 5 2 2 false true true (fun _ => 0) (by decide) (by decide) (by decide)
    ⟨some wit5Buf, 5, 2, 16, 2, true⟩ (by decide)

/-! ### Claim C4 -/

/-- Counterexample to C4 as stated: cloning the valid wide image `cexSrc`
succeeds, yet the clone's buffer is empty (the wrapped 32-bit stride
computation makes the fresh allocation zero bytes long), so the first byte
of row 0 — well inside the packed line size of 536870909 bytes — differs
between clone and source. -/
theorem clone_rows_overflow_counterexample :
    cexSrc.Clone true true (fun _ => 0) = some ⟨some [], 536870909, 1, 0, 1, true⟩ ∧
    0 < lineSizeOf cexSrc ∧
    ([] : List Nat).getD (0 * 0 + 0) 0 ≠ cexBuf.getD (0 * 536870912 + 0) 0 := by
  refine ⟨by rfl, by decide, ?_⟩
  have h1 : cexBuf.getD (0 * 536870912 + 0) 0 = 1 := by
    unfold cexBuf
    rw [getD_lt (by rw [List.length_replicate]; omega)]
    exact List.getElem_replicate ..
  rw [h1]
  decide

/-- C4 (amended): Clone returns the empty handle exactly when the source
has no data or an allocation fails; otherwise — given the data model
invariants and that the 32-bit stride computation does not wrap — it
returns a fresh owned image of identical width, height and format whose
rows agree with the source's on the first `XImageBytesPerLine` bytes. -/
theorem clone_spec_amended (img : XImage) (junk : Nat → Nat) (mOk nOk : Bool)
    (h0h : 0 ≤ img.mHeight) (h0s : 0 ≤ img.mStride)
    (hov : toUInt32Val (img.mWidth * (XImageBitsPerPixel img.mFormat : Int)) + 31 < 4294967296) :
    (img.Clone mOk nOk junk = none ↔ (img.mData = none ∨ mOk = false ∨ nOk = false)) ∧
    (∀ sbuf : List Nat, img.mData = some sbuf →
      ∃ c : XImage, ∃ cbuf : List Nat,
        img.Clone true true junk = some c ∧
        c.mData = some cbuf ∧
        c.mWidth = img.mWidth ∧ c.mHeight = img.mHeight ∧ c.mFormat = img.mFormat ∧
        c.mOwnMemory = true ∧
        (∀ y, y < img.mHeight.toNat → ∀ j, j < lineSizeOf img →
          cbuf.getD (y * strideFor img.mWidth img.mFormat + j) 0 =
            sbuf.getD (y * img.mStride.toNat + j) 0)) := by
  refine ⟨clone_none_iff img mOk nOk junk, ?_⟩
  intro sbuf hd
  obtain ⟨c, cbuf, hcl, hcd, hw, hh2, hf, how, hstr, hlen, hls, hrows⟩ :=
    clone_spec_helper img sbuf junk hd h0h h0s hov
  exact ⟨c, cbuf, hcl, hcd, hw, hh2, hf, how, hrows⟩

/-- Witness for C4: cloning a 2 by 2 grayscale image with stride 4 copies
both rows byte for byte. -/
theorem clone_spec_amended_witness :
    ∃ c : XImage, ∃ cbuf : List Nat,
      (XImage.mk (some [1, 2, 0, 0, 3, 4, 0, 0]) 2 2 4 1 true).Clone true true (fun _ => 7) =
        some c ∧
      c.mData = some cbuf ∧
      c.mWidth = 2 ∧ c.mHeight = 2 ∧ c.mFormat = 1 ∧
      c.mOwnMemory = true ∧
      (∀ y, y < 2 → ∀ j, j < 2 →
        cbuf.getD (y * 4 + j) 0 = [1, 2, 0, 0, 3, 4, 0, 0].getD (y * 4 + j) 0) :=
  (clone_spec_amended ⟨some [1, 2, 0, 0, 3, 4, 0, 0], 2, 2, 4, 1, true⟩ (fun _ => 7) true true
    (by decide) (by decide) (by decide)).2 [1, 2, 0, 0, 3, 4, 0, 0] rfl

/-! ### Claim C8 -/

/-- Counterexample to C8 as stated: starting from the valid wide image
`cexSrc`, Clone followed by CopyDataOrClone into an empty handle succeeds
and produces an image with the source's geometry, yet its buffer is empty
(both allocations compute the wrapped stride 0), so the rows do not agree
with the source on the packed line size. -/
theorem roundTrip_overflow_counterexample :
    ∃ mid r : XImage,
      cexSrc.Clone true true (fun _ => 0) = some mid ∧
      mid.CopyDataOrClone none true true (fun _ => 0) = (XError.Success, some r) ∧
      r.mWidth = cexSrc.mWidth ∧ r.mHeight = cexSrc.mHeight ∧ r.mFormat = cexSrc.mFormat ∧
      0 < lineSizeOf cexSrc ∧
      (r.mData.getD []).getD (0 * r.mStride.toNat + 0) 0 ≠
        cexBuf.getD (0 * cexSrc.mStride.toNat + 0) 0 := by
  refine ⟨⟨some [], 536870909, 1, 0, 1, true⟩, ⟨some [], 536870909, 1, 0, 1, true⟩,
    by rfl, by rfl, rfl, rfl, rfl, by decide, ?_⟩
  have h1 : cexBuf.getD (0 * cexSrc.mStride.toNat + 0) 0 = 1 := by
    unfold cexBuf
    rw [getD_lt (by rw [List.length_replicate]; omega)]
    exact List.getElem_replicate ..
  rw [h1]
  decide

/-- C8 (amended): for a valid owned source with data whose 32-bit stride
computation does not wrap, and a destination handle that is empty,
geometry-mismatched, or a valid matching image, Clone followed by
CopyDataOrClone succeeds and yields a destination with the source's width,
height and format whose rows agree with the source's rows on the packed
line size. -/
theorem roundTrip_spec_amended (I : XImage) (sbuf : List Nat) (I2 : Option XImage)
    (junk junk2 : Nat → Nat)
    (hd : I.mData = some sbuf)
    (h0h : 0 ≤ I.mHeight) (h0s : 0 ≤ I.mStride)
    (hov : toUInt32Val (I.mWidth * (XImageBitsPerPixel I.mFormat : Int)) + 31 < 4294967296)
    (hI2 : ∀ d : XImage, I2 = some d →
      (d.mWidth ≠ I.mWidth ∨ d.mHeight ≠ I.mHeight ∨ d.mFormat ≠ I.mFormat) ∨
      (d.mWidth = I.mWidth ∧ d.mHeight = I.mHeight ∧ d.mFormat = I.mFormat ∧
        0 ≤ d.mStride ∧ lineSizeOf I ≤ d.mStride.toNat ∧
        ∃ dbuf : List Nat, d.mData = some dbuf ∧
          I.mHeight.toNat * d.mStride.toNat ≤ dbuf.length)) :
    ∃ mid r : XImage, ∃ rbuf : List Nat,
      I.Clone true true junk = some mid ∧
      mid.CopyDataOrClone I2 true true junk2 = (XError.Success, some r) ∧
      r.mWidth = I.mWidth ∧ r.mHeight = I.mHeight ∧ r.mFormat = I.mFormat ∧
      r.mData = some rbuf ∧
      (∀ y, y < I.mHeight.toNat → ∀ j, j < lineSizeOf I →
        rbuf.getD (y * r.mStride.toNat + j) 0 = sbuf.getD (y * I.mStride.toNat + j) 0) := by
  obtain ⟨mid, cbuf, hcl, hcd, hw, hh2, hf, how, hstr, hlen, hls, hrows⟩ :=
    clone_spec_helper I sbuf junk hd h0h h0s hov
  have hmidw : toUInt32Val (mid.mWidth * (XImageBitsPerPixel mid.mFormat : Int)) =
      toUInt32Val (I.mWidth * (XImageBitsPerPixel I.mFormat : Int)) := by
    rw [hw, hf]
  have hmidline : lineSizeOf mid = lineSizeOf I := by
    unfold lineSizeOf
    rw [hmidw]
  have hmidstrideFor : strideFor mid.mWidth mid.mFormat = strideFor I.mWidth I.mFormat := by
    unfold strideFor
    rw [hmidw]
  have hmidsN : mid.mStride.toNat = strideFor I.mWidth I.mFormat := by
    rw [hstr, Int.toNat_natCast]
  -- whether the destination handle forces the clone branch
  by_cases hneed : needsClone mid I2 = true
  · -- replace branch: the result is a clone of the clone
    obtain ⟨r, rbuf, hcl2, hcd2, hw2, hh3, hf2, how2, hstr2, hlen2, hls2, hrows2⟩ :=
      clone_spec_helper mid cbuf junk2 hcd (by rw [hh2]; exact h0h)
        (by rw [hstr]; exact Int.natCast_nonneg _) (by rw [hmidw]; exact hov)
    refine ⟨mid, r, rbuf, hcl, ?_, hw2.trans hw, hh3.trans hh2, hf2.trans hf, hcd2, ?_⟩
    · unfold XImage.CopyDataOrClone
      rw [hneed, hcl2]
      rfl
    · intro y hy j hj
      have hy2 : y < mid.mHeight.toNat := by rw [hh2]; exact hy
      have hj2 : j < lineSizeOf mid := by rw [hmidline]; exact hj
      have hr := hrows2 y hy2 j hj2
      rw [hmidstrideFor, hmidsN] at hr
      have hrIdx : r.mStride.toNat = strideFor I.mWidth I.mFormat := by
        rw [hstr2, Int.toNat_natCast, hmidstrideFor]
      rw [hrIdx]
      rw [hr]
      exact hrows y hy j hj
  · -- in-place branch: the existing matching destination is overwritten
    have hneedf : needsClone mid I2 = false := by
      revert hneed
      cases needsClone mid I2 <;> simp
    cases I2 with
    | none => simp [needsClone] at hneedf
    | some d =>
      rcases hI2 d rfl with hmis | ⟨hdw, hdh, hdf, h0ds, hdls, dbuf, hddata, hdlen⟩
      · exfalso
        unfold needsClone at hneedf
        rcases hmis with h | h | h <;>
          simp only [bne_eq_false_iff_eq, Bool.or_eq_false_iff] at hneedf
        · exact h (hneedf.1.1.trans hw)
        · exact h (hneedf.1.2.trans hh2)
        · exact h (hneedf.2.trans hf)
      · obtain ⟨rbuf, hcopy, hrlen, hrows2, -⟩ :=
          copyData_rows mid d cbuf dbuf hcd hddata (by rw [hw, hdw]) (by rw [hh2, hdh])
            (by rw [hf, hdf]) (by rw [hstr]; exact Int.natCast_nonneg _) h0ds
            (by rw [hmidline]; exact hdls)
            (by rw [hh2]; exact hdlen)
        refine ⟨mid, { d with mData := some rbuf }, rbuf, hcl, ?_, hdw, hdh, hdf, rfl, ?_⟩
        · unfold XImage.CopyDataOrClone
          rw [hneedf, hcopy]
          rfl
        · intro y hy j hj
          have hy2 : y < mid.mHeight.toNat := by rw [hh2]; exact hy
          have hj2 : j < lineSizeOf mid := by rw [hmidline]; exact hj
          have hr := hrows2 y hy2 j hj2
          rw [hmidsN] at hr
          have hidx : ({ d with mData := some rbuf } : XImage).mStride.toNat = d.mStride.toNat := rfl
          rw [hidx]
          -- the written byte comes from the middle clone, whose rows are the source rows
          have hneedIdx : rbuf.getD (y * d.mStride.toNat + j) 0 =
              cbuf.getD (y * strideFor I.mWidth I.mFormat + j) 0 := hr
          rw [hneedIdx]
          exact hrows y hy j hj

/-- Witness for C8: the 2 by 2 grayscale image round-trips through Clone
and CopyDataOrClone into an empty handle with its rows intact. -/
theorem roundTrip_spec_amended_witness :
    ∃ mid r : XImage, ∃ rbuf : List Nat,
      (XImage.mk (some [1, 2, 0, 0, 3, 4, 0, 0]) 2 2 4 1 true).Clone true true (fun _ => 7) =
        some mid ∧
      mid.CopyDataOrClone none true true (fun _ => 9) = (XError.Success, some r) ∧
      r.mWidth = 2 ∧ r.mHeight = 2 ∧ r.mFormat = 1 ∧
      r.mData = some rbuf ∧
      (∀ y, y < 2 → ∀ j, j < 2 →
        rbuf.getD (y * r.mStride.toNat + j) 0 =
          [1, 2, 0, 0, 3, 4, 0, 0].getD (y * 4 + j) 0) :=
  roundTrip_spec_amended ⟨some [1, 2, 0, 0, 3, 4, 0, 0], 2, 2, 4, 1, true⟩
    [1, 2, 0, 0, 3, 4, 0, 0] none (fun _ => 7) (fun _ => 9) rfl (by decide) (by decide)
    (by decide) (fun d hd => Option.noConfusion hd)

end Cam2web
